import Mathlib

/-!
# DevTrack project store: shallow embedding

A shallow embedding of the data layer and derived queries of `app.py`
(a Streamlit project-management dashboard backed by SQLite), together
with proofs about its operations.

Modelling conventions:
* Rows of the three SQLite tables (`projects`, `team_members`, `tasks`)
  become Lean structures; calendar dates become integer day numbers;
  the `REAL` progress columns become integers (the UI sliders only ever
  submit integers in `[0, 100]`).
* SQL statements over a table become pure functions over a `List` of rows.
* A form-submit handler that either writes and reports success or reports
  a validation message becomes a function returning `SaveOutcome × table`.
* Python float arithmetic in the completion estimate becomes exact `ℚ`
  arithmetic; `timedelta.days` truncation becomes `Int.floor`.
-/

namespace DevTrack

/-- Row of the `projects` table (`app.py` `init_db`, lines 25-35). -/
structure Project where
  id : Nat
  name : String
  description : String
  start_date : Int
  end_date : Int
  status : String
  progress : Int
deriving DecidableEq, Repr

/-- Row of the `team_members` table (`app.py` `init_db`, lines 37-44). -/
structure TeamMember where
  id : Nat
  name : String
  role : String
  email : String
deriving DecidableEq, Repr

/-- Row of the `tasks` table (`app.py` `init_db`, lines 46-61);
`assigned_to` is nullable. -/
structure Task where
  id : Nat
  project_id : Nat
  name : String
  description : String
  status : String
  priority : String
  start_date : Int
  due_date : Int
  assigned_to : Option Nat
  progress : Int
deriving DecidableEq, Repr

/-- The closed status enumeration offered by the project form
(`app.py` line 261). -/
def projectStatuses : List String :=
  ["Planning", "In Progress", "On Hold", "Completed", "Cancelled"]

/-- The closed status enumeration offered by the task form
(`app.py` line 419). -/
def taskStatuses : List String :=
  ["Not Started", "In Progress", "Blocked", "Completed"]

/-- Outcome reported by a form-submit handler: `st.success` on a write,
`st.error` with a message otherwise. -/
inductive SaveOutcome where
  | success : SaveOutcome
  | error : String → SaveOutcome
deriving DecidableEq, Repr

/-- The rowid SQLite assigns to a fresh `INTEGER PRIMARY KEY` insert
(largest existing id plus one; no delete operation exists in `app.py`). -/
def nextId (ids : List Nat) : Nat :=
  ids.foldl max 0 + 1

/-- The new-project submit handler (`app.py` `projects_page`, lines 274-294):
an empty name is rejected with an error message and nothing is written;
otherwise the row is inserted and gets a fresh identity. -/
def createProject (projects : List Project) (name description : String)
    (start_date end_date : Int) (status : String) (progress : Int) :
    SaveOutcome × List Project :=
  if name = "" then
    (.error "Project name is required.", projects)
  else
    (.success, projects ++
      [{ id := nextId (projects.map Project.id), name := name,
         description := description, start_date := start_date,
         end_date := end_date, status := status, progress := progress }])

/-- `UPDATE projects SET ... WHERE id = ?` (`app.py` lines 283-287):
every row whose id matches is overwritten in full (id kept). -/
def updateProject (projects : List Project) (pid : Nat) (new : Project) :
    List Project :=
  projects.map fun p => if p.id = pid then { new with id := p.id } else p

/-- The edit-project submit handler (`app.py` `projects_page`, lines 274-294,
branch with an existing id): name validation, then the SQL update, then an
unconditional success message. -/
def saveProjectEdit (projects : List Project) (pid : Nat) (new : Project) :
    SaveOutcome × List Project :=
  if new.name = "" then
    (.error "Project name is required.", projects)
  else
    (.success, updateProject projects pid new)

/-- `SELECT * FROM projects WHERE id = ?` with `fetchone`
(`app.py` lines 244-246). -/
def getProject (projects : List Project) (pid : Nat) : Option Project :=
  projects.find? fun p => p.id == pid

/-- `UPDATE tasks SET ... WHERE id = ?` (`app.py` lines 464-468). -/
def updateTask (tasks : List Task) (tid : Nat) (new : Task) : List Task :=
  tasks.map fun t => if t.id = tid then { new with id := t.id } else t

/-- The edit-task submit handler (`app.py` `tasks_page`, lines 450-478):
requires a non-empty name and at least one project, then runs the SQL
update and reports success unconditionally. -/
def saveTaskEdit (projects : List Project) (tasks : List Task) (tid : Nat)
    (new : Task) : SaveOutcome × List Task :=
  if projects.isEmpty then
    (.error "You need to create a project before adding tasks.", tasks)
  else if new.name = "" then
    (.error "Task name is required.", tasks)
  else
    (.success, updateTask tasks tid new)

/-- A task row joined with its project's and assignee's display names via
`LEFT JOIN` (`app.py` `tasks_page` query, line 320). -/
structure JoinedTask where
  task : Task
  project_name : Option String
  assignee_name : Option String
deriving DecidableEq, Repr

/-- The `LEFT JOIN` of one task against `projects` (on `project_id`) and
`team_members` (on `assigned_to`); ids are primary keys, so the first
matching row is the matching row. -/
def joinTask (projects : List Project) (members : List TeamMember)
    (t : Task) : JoinedTask :=
  { task := t
    project_name := (projects.find? fun p => p.id == t.project_id).map Project.name
    assignee_name := t.assigned_to.bind fun a =>
      (members.find? fun m => m.id == a).map TeamMember.name }

/-- The WHERE clause built from the two optional filters of the tasks page
(`app.py` lines 321-333): `p.name = ?` and `t.status = ?`, combined with
AND; SQLite string equality is case-sensitive. A task whose `LEFT JOIN`
produced a NULL project name fails the `p.name = ?` comparison. -/
def matchesFilters (projectFilter statusFilter : Option String)
    (jt : JoinedTask) : Bool :=
  (match projectFilter with
   | none => true
   | some n => jt.project_name == some n) &&
  (match statusFilter with
   | none => true
   | some s => jt.task.status == s)

/-- The filtered task listing of the tasks page (`app.py` lines 319-336). -/
def listTasks (projects : List Project) (members : List TeamMember)
    (tasks : List Task) (projectFilter statusFilter : Option String) :
    List JoinedTask :=
  (tasks.map (joinTask projects members)).filter
    (matchesFilters projectFilter statusFilter)

/-- Comparison used to sort tasks ascending by due date
(`sort_values('due_date')`, `app.py` line 166). -/
def dueLE (a b : Task) : Prop :=
  a.due_date ≤ b.due_date

instance : DecidableRel dueLE :=
  fun a b => inferInstanceAs (Decidable (a.due_date ≤ b.due_date))

instance : IsTotal Task dueLE :=
  ⟨fun a b => Int.le_total a.due_date b.due_date⟩

instance : IsTrans Task dueLE :=
  ⟨fun _ _ _ h h' => le_trans h h'⟩

/-- The "Tasks Due Soon" query of the dashboard (`app.py` `dashboard_page`,
lines 157-173): keep tasks whose status is not `Completed` and whose due
date is at most `now + 7` (the code imposes no lower bound), sort ascending
by due date, then inner-merge each task with its project's name (tasks
whose `project_id` matches no project are dropped by the merge). -/
def upcomingTasks (projects : List Project) (tasks : List Task) (now : Int) :
    List (Task × String) :=
  (((tasks.filter fun t =>
      t.status != "Completed" && decide (t.due_date ≤ now + 7)).insertionSort
        dueLE).filterMap
    fun t => (projects.find? fun p => p.id == t.project_id).map
      fun p => (t, p.name))

/-- Task duration in days, `(due_date - start_date).dt.days`
(`app.py` line 684). -/
def duration (t : Task) : Int :=
  t.due_date - t.start_date

/-- Scan for the first row attaining the maximal duration, as
`task_durations.idxmax()` does (`app.py` line 685): a later row replaces
the current best only when strictly longer. -/
def pickBest (best : Task) : List Task → Task
  | [] => best
  | t :: ts => if duration best < duration t then pickBest t ts else pickBest best ts

/-- The simplified critical-path pick of the reports page
(`app.py` lines 683-686): the first task of maximal duration, if any. -/
def longestTask : List Task → Option Task
  | [] => none
  | t :: ts => some (pickBest t ts)

/-- `completed_tasks_count` (`app.py` line 692). -/
def completedCount (tasks : List Task) : Nat :=
  (tasks.filter fun t => t.status == "Completed").length

/-- `completion_percentage = (completed / total) * 100 if total > 0 else 0`
(`app.py` line 694) — the ratio of completed tasks, not the project's
stored progress field. -/
def completionPercentage (tasks : List Task) : ℚ :=
  if tasks.length = 0 then 0
  else (completedCount tasks * 100 : ℚ) / (tasks.length : ℚ)

/-- `estimated_total_days = days_passed / (completion_percentage / 100)`
(`app.py` line 705), with `days_passed = now - start`. -/
def estimatedTotalDays (startDate : Int) (pct : ℚ) (now : Int) : ℚ :=
  ((now - startDate : Int) : ℚ) / (pct / 100)

/-- `estimated_completion = project_start + timedelta(days=estimated_total_days)`
(`app.py` line 706). -/
def estimatedCompletionDate (startDate : Int) (pct : ℚ) (now : Int) : ℚ :=
  (startDate : ℚ) + estimatedTotalDays startDate pct now

/-- Verdict of the completion prediction of the reports page. -/
inductive EstimateResult where
  | noTasks : EstimateResult
  | noEstimate : EstimateResult
  | late : Int → EstimateResult
  | onTrack : EstimateResult
deriving DecidableEq, Repr

/-- The completion prediction of the reports page (`app.py` lines 691-713):
with no tasks the page only reports that no tasks exist; with a zero
completion percentage the `if completion_percentage > 0` guard skips the
extrapolation entirely (no estimate); otherwise the linear extrapolation
runs and the verdict compares the estimated completion date against the
project's end date, late by `(estimated_completion - project_end).days`. -/
def estimateCompletion (p : Project) (tasks : List Task) (now : Int) :
    EstimateResult :=
  if tasks.isEmpty then
    .noTasks
  else if 0 < completionPercentage tasks then
    if (p.end_date : ℚ) <
        estimatedCompletionDate p.start_date (completionPercentage tasks) now then
      .late ⌊estimatedCompletionDate p.start_date (completionPercentage tasks) now -
        (p.end_date : ℚ)⌋
    else
      .onTrack
  else
    .noEstimate

/-- The project selection of the reports timeline tab (`app.py` line 640):
`projects_df[projects_df['name'] == selected]['id'].iloc[0]`, i.e. the id
of the first stored project bearing the selected name. -/
def resolveProjectId (projects : List Project) (selected : String) :
    Option Nat :=
  (projects.find? fun p => p.name == selected).map Project.id

/-! ### Concrete table fixtures used in the concrete evaluations below -/

/-- A stored project, day numbers relative to its start. -/
def projAlpha : Project :=
  { id := 1, name := "Alpha", description := "", start_date := 0,
    end_date := 200, status := "In Progress", progress := 0 }

/-- A second stored project bearing the same display name as `projAlpha`. -/
def projBeta : Project :=
  { id := 2, name := "Alpha", description := "", start_date := 0,
    end_date := 100, status := "Planning", progress := 0 }

/-- A project with the spec example's dates: start 2024-01-01 (day 0),
end 2024-01-15 (day 14), stored progress 50. -/
def projHalf : Project :=
  { id := 1, name := "Alpha", description := "", start_date := 0,
    end_date := 14, status := "In Progress", progress := 50 }

/-- A completed task of project 1. -/
def taskDone : Task :=
  { id := 1, project_id := 1, name := "A", description := "",
    status := "Completed", priority := "Medium", start_date := 0,
    due_date := 5, assigned_to := none, progress := 100 }

/-- A not-started task of project 1. -/
def taskOpen : Task :=
  { id := 2, project_id := 1, name := "B", description := "",
    status := "Not Started", priority := "Medium", start_date := 0,
    due_date := 5, assigned_to := none, progress := 0 }

/-- An in-progress (hence not completed) task of project 1. -/
def taskOpen2 : Task :=
  { id := 3, project_id := 1, name := "C", description := "",
    status := "In Progress", priority := "Low", start_date := 0,
    due_date := 6, assigned_to := none, progress := 10 }

/-- A not-started task of project 1 that is already overdue on day 100. -/
def overdueTask : Task :=
  { id := 7, project_id := 1, name := "T", description := "",
    status := "Not Started", priority := "High", start_date := 90,
    due_date := 99, assigned_to := none, progress := 0 }

/-- A not-started task belonging to `projBeta`. -/
def taskBeta : Task :=
  { id := 4, project_id := 2, name := "D", description := "",
    status := "Not Started", priority := "Medium", start_date := 0,
    due_date := 9, assigned_to := none, progress := 0 }

/-! ### Generic helper lemmas -/

/-- Folding `max` over a list only grows the accumulator. -/
theorem init_le_foldl_max : ∀ (l : List Nat) (init : Nat),
    init ≤ l.foldl max init
  | [], _ => le_refl _
  | a :: l, init =>
    le_trans (le_max_left init a) (init_le_foldl_max l (max init a))

/-- Every member of a list is bounded by the `max`-fold over it. -/
theorem mem_le_foldl_max : ∀ (l : List Nat) (init : Nat), ∀ n ∈ l,
    n ≤ l.foldl max init
  | a :: l, init, n, h => by
    rcases List.mem_cons.mp h with rfl | h
    · exact le_trans (le_max_right init n) (init_le_foldl_max l _)
    · exact mem_le_foldl_max l (max init a) n h

/-- The identity SQLite assigns to a fresh insert is strictly larger than
every stored identity. -/
theorem mem_lt_nextId (ids : List Nat) (n : Nat) (h : n ∈ ids) :
    n < nextId ids :=
  Nat.lt_succ_of_le (mem_le_foldl_max ids 0 n h)

/-! ### C4: createProject validation -/

/-- C4: for every store state, `createProject` with an empty name fails with
the validation error and performs no insert — the projects table, and in
particular its row count, is unchanged; with a non-empty name the project
is inserted and assigned a new identity, one borne by no existing row. -/
theorem createProject_validation (projects : List Project)
    (name description : String) (start_date end_date : Int) (status : String)
    (progress : Int) :
    (name = "" →
      createProject projects name description start_date end_date status
          progress =
        (.error "Project name is required.", projects)) ∧
    (name ≠ "" →
      createProject projects name description start_date end_date status
          progress =
        (.success, projects ++
          [{ id := nextId (projects.map Project.id), name := name,
             description := description, start_date := start_date,
             end_date := end_date, status := status,
             progress := progress }]) ∧
      (createProject projects name description start_date end_date status
          progress).2.length = projects.length + 1 ∧
      ∀ p ∈ projects, p.id ≠ nextId (projects.map Project.id)) := by
  constructor
  · intro h
    simp [createProject, h]
  · intro h
    refine ⟨by simp [createProject, h], by simp [createProject, h], ?_⟩
    intro p hp
    exact Nat.ne_of_lt
      (mem_lt_nextId (projects.map Project.id) p.id
        (List.mem_map_of_mem Project.id hp))

/-- Witness for C4 at a concrete store. -/
theorem createProject_validation_witness :
    createProject [] "" "" 0 30 "Planning" 0 =
      (.error "Project name is required.", []) ∧
    createProject [] "Alpha" "" 0 30 "Planning" 0 =
      (.success,
        [{ id := 1, name := "Alpha", description := "", start_date := 0,
           end_date := 30, status := "Planning", progress := 0 }]) := by
  constructor
  · exact (createProject_validation [] "" "" 0 30 "Planning" 0).1 rfl
  · exact ((createProject_validation [] "Alpha" "" 0 30 "Planning" 0).2
      (by decide)).1

/-! ### C7: create-then-get round trip -/

/-- C7: creating a project from a valid field tuple (non-empty name, status
drawn from the closed enumeration, progress in `[0, 100]`) and then fetching
the assigned identity returns a record equal to the input on all fields,
whose stored progress lies in `[0, 100]`. -/
theorem createProject_getProject_roundtrip (projects : List Project)
    (name description : String) (start_date end_date : Int) (status : String)
    (progress : Int) (hname : name ≠ "") (hstatus : status ∈ projectStatuses)
    (h0 : 0 ≤ progress) (h100 : progress ≤ 100) :
    getProject
        (createProject projects name description start_date end_date status
          progress).2
        (nextId (projects.map Project.id)) =
      some { id := nextId (projects.map Project.id), name := name,
             description := description, start_date := start_date,
             end_date := end_date, status := status, progress := progress } ∧
    ∀ r, getProject
        (createProject projects name description start_date end_date status
          progress).2
        (nextId (projects.map Project.id)) = some r →
      0 ≤ r.progress ∧ r.progress ≤ 100 := by
  have htable :
      (createProject projects name description start_date end_date status
        progress).2 =
      projects ++
        [{ id := nextId (projects.map Project.id), name := name,
           description := description, start_date := start_date,
           end_date := end_date, status := status, progress := progress }] := by
    simp [createProject, hname]
  have hget :
      getProject
        (createProject projects name description start_date end_date status
          progress).2
        (nextId (projects.map Project.id)) =
      some { id := nextId (projects.map Project.id), name := name,
             description := description, start_date := start_date,
             end_date := end_date, status := status, progress := progress } := by
    rw [htable]
    unfold getProject
    rw [List.find?_append]
    have hnone :
        (projects.find? fun p => p.id == nextId (projects.map Project.id)) =
          none := by
      rw [List.find?_eq_none]
      intro p hp
      simp only [beq_iff_eq]
      exact Nat.ne_of_lt
        (mem_lt_nextId (projects.map Project.id) p.id
          (List.mem_map_of_mem Project.id hp))
    rw [hnone, Option.none_or]
    exact List.find?_cons_of_pos _ (by simp)
  refine ⟨hget, ?_⟩
  intro r hr
  rw [hget] at hr
  cases hr
  exact ⟨h0, h100⟩

/-- Witness for C7 at a concrete valid tuple. -/
theorem createProject_getProject_roundtrip_witness :
    getProject (createProject [projAlpha] "Beta" "d" 3 40 "Planning" 60).2
        (nextId ([projAlpha].map Project.id)) =
      some { id := nextId ([projAlpha].map Project.id), name := "Beta",
             description := "d", start_date := 3, end_date := 40,
             status := "Planning", progress := 60 } :=
  (createProject_getProject_roundtrip [projAlpha] "Beta" "d" 3 40 "Planning"
    60 (by decide) (by simp [projectStatuses]) (by decide) (by decide)).1

/-! ### C3: update on an absent id -/

/-- C3 counterexample: updating the tasks table, which holds only the task
with id 2, under the absent id 99 does not fail with any not-found error:
the handler reports success and the table is returned unchanged. -/
theorem saveTaskEdit_absent_id_cex :
    saveTaskEdit [projAlpha] [taskOpen] 99 overdueTask =
      (.success, [taskOpen]) := by
  simp [saveTaskEdit, updateTask, overdueTask, taskOpen]

/-- C3 (amended): updating a task under an id no stored row bears is a
silent no-op — the handler still reports success and the tasks table is
unchanged (no not-found error exists in the code); likewise for updating a
project under an absent id. -/
theorem update_absent_id_silent_noop :
    (∀ (projects : List Project) (tasks : List Task) (tid : Nat) (new : Task),
      projects.isEmpty = false → new.name ≠ "" → (∀ t ∈ tasks, t.id ≠ tid) →
      saveTaskEdit projects tasks tid new = (.success, tasks)) ∧
    (∀ (projects : List Project) (pid : Nat) (new : Project),
      new.name ≠ "" → (∀ p ∈ projects, p.id ≠ pid) →
      saveProjectEdit projects pid new = (.success, projects)) := by
  constructor
  · intro projects tasks tid new hproj hname habsent
    have hupd : updateTask tasks tid new = tasks := by
      unfold updateTask
      have := List.map_congr_left (l := tasks)
        (f := fun t => if t.id = tid then { new with id := t.id } else t)
        (g := id) (fun t ht => by simp [habsent t ht])
      simpa using this
    simp [saveTaskEdit, hproj, hname, hupd]
  · intro projects pid new hname habsent
    have hupd : updateProject projects pid new = projects := by
      unfold updateProject
      have := List.map_congr_left (l := projects)
        (f := fun p => if p.id = pid then { new with id := p.id } else p)
        (g := id) (fun p hp => by simp [habsent p hp])
      simpa using this
    simp [saveProjectEdit, hname, hupd]

/-- Witness for the amended C3 at concrete tables. -/
theorem update_absent_id_silent_noop_witness :
    saveTaskEdit [projAlpha] [taskOpen, taskDone] 99 overdueTask =
      (.success, [taskOpen, taskDone]) ∧
    saveProjectEdit [projAlpha] 42 projBeta = (.success, [projAlpha]) := by
  constructor
  · exact update_absent_id_silent_noop.1 [projAlpha] [taskOpen, taskDone] 99
      overdueTask (by decide) (by decide) (by decide)
  · exact update_absent_id_silent_noop.2 [projAlpha] 42 projBeta
      (by decide) (by decide)

/-! ### C1: the dashboard's upcoming-tasks query -/

/-- C1 counterexample: with `now = 100`, the not-completed task due on day
99 — strictly before `now` — is returned by the dashboard query, because
the code only bounds the due date from above (`due_date <= now + 7`); the
claimed window `[now, now + 7]` therefore does not hold. -/
theorem upcomingTasks_overdue_cex :
    upcomingTasks [projAlpha] [overdueTask] 100 = [(overdueTask, "Alpha")] ∧
    overdueTask.due_date < 100 :=
  ⟨rfl, by decide⟩

/-- C1 (amended): the dashboard query returns exactly the tasks whose
status is not `Completed` and whose due date is at most `now + 7` — with no
lower bound, so overdue tasks are returned as well — sorted ascending by
due date, each joined with its owning project's display name (tasks whose
project id matches no stored project are dropped by the inner merge). -/
theorem upcomingTasks_spec (projects : List Project) (tasks : List Task)
    (now : Int) :
    (∀ (t : Task) (pname : String),
      (t, pname) ∈ upcomingTasks projects tasks now ↔
        t ∈ tasks ∧ t.status ≠ "Completed" ∧ t.due_date ≤ now + 7 ∧
        ∃ p, (projects.find? fun q => q.id == t.project_id) = some p ∧
          p.name = pname) ∧
    (upcomingTasks projects tasks now).Pairwise
      (fun a b => a.1.due_date ≤ b.1.due_date) := by
  constructor
  · intro t pname
    simp only [upcomingTasks, List.mem_filterMap, List.mem_insertionSort,
      List.mem_filter, Option.map_eq_some', Bool.and_eq_true, bne_iff_ne,
      decide_eq_true_eq, Prod.mk.injEq]
    constructor
    · rintro ⟨a, ⟨ha, hst, hdue⟩, p, hfind, rfl, rfl⟩
      exact ⟨ha, hst, hdue, p, hfind, rfl⟩
    · rintro ⟨ht, hst, hdue, p, hfind, hname⟩
      exact ⟨t, ⟨ht, hst, hdue⟩, p, hfind, rfl, hname⟩
  · have hs := List.sorted_insertionSort dueLE
      (tasks.filter fun t =>
        t.status != "Completed" && decide (t.due_date ≤ now + 7))
    refine List.pairwise_filterMap.mpr (hs.imp ?_)
    intro a b hab x hx y hy
    simp only [Option.mem_def, Option.map_eq_some'] at hx hy
    obtain ⟨p, _, rfl⟩ := hx
    obtain ⟨q, _, rfl⟩ := hy
    exact hab

/-! ### C8: the tasks-page filters -/

/-- C8: the filtered task listing returns exactly the joined task rows that
satisfy every supplied filter (the filters compose with logical AND), where
the status filter is a case-sensitive exact string comparison against the
stored status and the project filter an exact comparison against the joined
project name. -/
theorem listTasks_spec (projects : List Project) (members : List TeamMember)
    (tasks : List Task) (projectFilter statusFilter : Option String)
    (jt : JoinedTask) :
    jt ∈ listTasks projects members tasks projectFilter statusFilter ↔
      (∃ t ∈ tasks, joinTask projects members t = jt) ∧
      (∀ n, projectFilter = some n → jt.project_name = some n) ∧
      (∀ s, statusFilter = some s → jt.task.status = s) := by
  simp only [listTasks, List.mem_filter, List.mem_map, matchesFilters,
    Bool.and_eq_true]
  cases projectFilter <;> cases statusFilter <;>
    simp [and_assoc, beq_iff_eq]

/-- Witness for C8: with the status filter `Completed`, the completed task's
joined row is returned (and satisfies the filter), at a concrete store. -/
theorem listTasks_spec_witness :
    joinTask [projAlpha] ([] : List TeamMember) taskDone ∈
      listTasks [projAlpha] [] [taskDone, taskOpen] none (some "Completed") :=
  (listTasks_spec [projAlpha] [] [taskDone, taskOpen] none (some "Completed")
      (joinTask [projAlpha] [] taskDone)).mpr
    ⟨⟨taskDone, by simp, rfl⟩, by simp,
      fun s hs => by cases hs; rfl⟩

/-! ### C2: what the completion estimate is computed from -/

/-- C2 counterexample: the same project record (stored progress 50, start
day 0, end day 14) evaluated at the same now-date 10 yields two different
verdicts depending only on the task rows — an estimate of 6 days late when
one of two tasks is completed, and no estimate at all when none is — so the
estimate is not computed from the stored progress field. -/
theorem estimateCompletion_stored_progress_cex :
    projHalf.progress = 50 ∧
    estimateCompletion projHalf [taskDone, taskOpen] 10 =
      EstimateResult.late 6 ∧
    estimateCompletion projHalf [taskOpen, taskOpen2] 10 =
      EstimateResult.noEstimate := by
  refine ⟨rfl, ?_, ?_⟩
  · simp [estimateCompletion, completionPercentage, completedCount,
      estimatedCompletionDate, estimatedTotalDays, taskDone, taskOpen,
      projHalf, List.filter_cons, List.filter_nil]
    norm_num
  · simp [estimateCompletion, completionPercentage, completedCount,
      estimatedCompletionDate, estimatedTotalDays, taskOpen, taskOpen2,
      projHalf, List.filter_cons, List.filter_nil]

/-- C2 (amended): the completion estimate is computed from the project's
task-completion percentage — `100 * completed tasks / total tasks` — not
from the stored progress field, together with the stored start date
(elapsed days `D = N - S`), the end date and the now-date: any two inputs
agreeing on those data get the same verdict, whatever their stored
progress values or other fields. -/
theorem estimateCompletion_from_task_pct (p₁ p₂ : Project)
    (ts₁ ts₂ : List Task) (now : Int)
    (hs : p₁.start_date = p₂.start_date) (he : p₁.end_date = p₂.end_date)
    (hn : ts₁.isEmpty = ts₂.isEmpty)
    (hp : completionPercentage ts₁ = completionPercentage ts₂) :
    estimateCompletion p₁ ts₁ now = estimateCompletion p₂ ts₂ now := by
  simp only [estimateCompletion, hs, he, hn, hp]

/-- Witness for the amended C2: two projects differing in stored progress
(and name), over task tables with equal completion percentage, get the same
verdict. -/
theorem estimateCompletion_from_task_pct_witness :
    estimateCompletion projHalf [taskDone, taskOpen] 10 =
      estimateCompletion
        { projHalf with progress := 95, name := "Other" }
        [taskDone, taskOpen2] 10 :=
  estimateCompletion_from_task_pct projHalf
    { projHalf with progress := 95, name := "Other" }
    [taskDone, taskOpen] [taskDone, taskOpen2] 10 rfl rfl rfl
    (by simp [completionPercentage, completedCount, taskDone, taskOpen,
      taskOpen2, List.filter_cons, List.filter_nil])

/-! ### C5: the division-by-zero guard -/

/-- C5 counterexample: a project whose stored progress percentage is 0 still
gets a completion estimate (here the on-track verdict) when its only task
is completed, so "progress 0 implies no estimate" fails for the stored
progress field: the guard reads the task-completion percentage instead. -/
theorem estimateCompletion_zero_stored_progress_cex :
    projAlpha.progress = 0 ∧
    estimateCompletion projAlpha [taskDone] 10 = EstimateResult.onTrack := by
  refine ⟨rfl, ?_⟩
  simp [estimateCompletion, completionPercentage, completedCount,
    estimatedCompletionDate, estimatedTotalDays, taskDone, projAlpha,
    List.filter_cons, List.filter_nil]
  norm_num

/-- C5 (amended): whenever the computed completion percentage is 0 the
extrapolation — and with it the division — is skipped entirely: the result
is the degenerate no-tasks report for an empty task table and no estimate
otherwise, and being a total function the query never throws. -/
theorem estimateCompletion_zero_pct_guarded (p : Project) (tasks : List Task)
    (now : Int) (h : completionPercentage tasks = 0) :
    estimateCompletion p tasks now =
      if tasks.isEmpty then EstimateResult.noTasks
      else EstimateResult.noEstimate := by
  simp [estimateCompletion, h]

/-- Witness for the amended C5: one not-started task gives completion
percentage 0 and no estimate. -/
theorem estimateCompletion_zero_pct_guarded_witness :
    estimateCompletion projAlpha [taskOpen] 10 =
      EstimateResult.noEstimate := by
  have h := estimateCompletion_zero_pct_guarded projAlpha [taskOpen] 10
    (by simp [completionPercentage, completedCount, taskOpen,
      List.filter_cons, List.filter_nil])
  simpa using h

/-! ### C6: the worked numeric example -/

/-- C6: with start day 0 (2024-01-01), now day 10 (2024-01-11, so `D = 10`),
and completion percentage 50 (one of two tasks completed), the estimate is
`estimatedTotalDays = 20`, `estimatedCompletionDate = day 20` (2024-01-21),
and against the end date day 14 (2024-01-15) the verdict is late by 6 days.
-/
theorem estimateCompletion_worked_example :
    completionPercentage [taskDone, taskOpen] = 50 ∧
    estimatedTotalDays 0 50 10 = 20 ∧
    estimatedCompletionDate 0 50 10 = 20 ∧
    estimateCompletion projHalf [taskDone, taskOpen] 10 =
      EstimateResult.late 6 := by
  refine ⟨?_, ?_, ?_, ?_⟩
  · simp [completionPercentage, completedCount, taskDone, taskOpen,
      List.filter_cons, List.filter_nil]
    norm_num
  · norm_num [estimatedTotalDays]
  · norm_num [estimatedCompletionDate, estimatedTotalDays]
  · simp [estimateCompletion, completionPercentage, completedCount,
      estimatedCompletionDate, estimatedTotalDays, taskDone, taskOpen,
      projHalf, List.filter_cons, List.filter_nil]
    norm_num

/-! ### C9: the longest-task pick -/

/-- Scanning for a strictly longer task returns either the accumulator or
the first strictly longer maximal element of the scanned list. -/
theorem pickBest_spec : ∀ (ts : List Task) (best : Task),
    (duration best ≤ duration (pickBest best ts) ∧
      ∀ u ∈ ts, duration u ≤ duration (pickBest best ts)) ∧
    (pickBest best ts = best ∨
      ∃ l₁ l₂, ts = l₁ ++ pickBest best ts :: l₂ ∧
        duration best < duration (pickBest best ts) ∧
        ∀ v ∈ l₁, duration v < duration (pickBest best ts))
  | [], best => by
    refine ⟨⟨le_refl _, ?_⟩, Or.inl rfl⟩
    intro u hu
    cases hu
  | t :: ts, best => by
    by_cases h : duration best < duration t
    · have ih := pickBest_spec ts t
      have hrw : pickBest best (t :: ts) = pickBest t ts := by
        simp [pickBest, h]
      rw [hrw]
      obtain ⟨⟨ih1, ih2⟩, ihcase⟩ := ih
      refine ⟨⟨le_trans (le_of_lt h) ih1, ?_⟩, ?_⟩
      · intro u hu
        rcases List.mem_cons.mp hu with rfl | hu
        · exact ih1
        · exact ih2 u hu
      · rcases ihcase with heq | ⟨l₁, l₂, hts, hlt, hall⟩
        · refine Or.inr ⟨[], ts, ?_, ?_, ?_⟩
          · rw [heq]; rfl
          · rw [heq]; exact h
          · intro v hv; cases hv
        · refine Or.inr ⟨t :: l₁, l₂, ?_, lt_trans h hlt, ?_⟩
          · exact congrArg (List.cons t) hts
          · intro v hv
            rcases List.mem_cons.mp hv with rfl | hv
            · exact hlt
            · exact hall v hv
    · have ih := pickBest_spec ts best
      have hrw : pickBest best (t :: ts) = pickBest best ts := by
        simp [pickBest, h]
      rw [hrw]
      obtain ⟨⟨ih1, ih2⟩, ihcase⟩ := ih
      refine ⟨⟨ih1, ?_⟩, ?_⟩
      · intro u hu
        rcases List.mem_cons.mp hu with rfl | hu
        · exact le_trans (not_lt.mp h) ih1
        · exact ih2 u hu
      · rcases ihcase with heq | ⟨l₁, l₂, hts, hlt, hall⟩
        · exact Or.inl heq
        · refine Or.inr ⟨t :: l₁, l₂, ?_, hlt, ?_⟩
          · exact congrArg (List.cons t) hts
          · intro v hv
            rcases List.mem_cons.mp hv with rfl | hv
            · exact lt_of_le_of_lt (not_lt.mp h) hlt
            · exact hall v hv

/-- C9: on a non-empty task list, the longest-task pick returns a task of
maximal duration `due_date - start_date`, situated so that every task
stored before it is strictly shorter — i.e. on ties the first-encountered
row wins. -/
theorem longestTask_first_max (tasks : List Task) (h : tasks ≠ []) :
    ∃ t l₁ l₂, longestTask tasks = some t ∧ tasks = l₁ ++ t :: l₂ ∧
      (∀ u ∈ tasks, duration u ≤ duration t) ∧
      ∀ u ∈ l₁, duration u < duration t := by
  match tasks, h with
  | t :: ts, _ =>
    obtain ⟨⟨h1, h2⟩, hcase⟩ := pickBest_spec ts t
    rcases hcase with heq | ⟨l₁, l₂, hts, hlt, hall⟩
    · refine ⟨pickBest t ts, [], ts, rfl, ?_, ?_, ?_⟩
      · rw [heq]; rfl
      · intro u hu
        rcases List.mem_cons.mp hu with rfl | hu
        · exact h1
        · exact h2 u hu
      · intro u hu; cases hu
    · refine ⟨pickBest t ts, t :: l₁, l₂, rfl, ?_, ?_, ?_⟩
      · exact congrArg (List.cons t) hts
      · intro u hu
        rcases List.mem_cons.mp hu with rfl | hu
        · exact h1
        · exact h2 u hu
      · intro u hu
        rcases List.mem_cons.mp hu with rfl | hu
        · exact hlt
        · exact hall u hu

/-- Witness for C9: a concrete three-task table whose last two tasks tie for
the maximal duration; the theorem instance exhibits the decomposition, and
the pick indeed lands on the earlier of the two tied tasks. -/
theorem longestTask_first_max_witness :
    (∃ t l₁ l₂, longestTask [taskDone, taskBeta, overdueTask] = some t ∧
      [taskDone, taskBeta, overdueTask] = l₁ ++ t :: l₂ ∧
      (∀ u ∈ [taskDone, taskBeta, overdueTask],
        duration u ≤ duration t) ∧
      ∀ u ∈ l₁, duration u < duration t) ∧
    longestTask [taskDone, taskBeta, overdueTask] = some taskBeta :=
  ⟨longestTask_first_max [taskDone, taskBeta, overdueTask] (by simp), rfl⟩

/-! ### C10: duplicate project names -/

/-- C10: project names are not unique (nothing enforces it), and the two
pages disagree on how to resolve a name. The reports timeline resolves the
selected name to the id of the first stored project bearing it — silently
ignoring any later same-named project — while the tasks-page name filter
returns the joined rows of every task whose owning project bears the name,
whichever same-named project owns them. -/
theorem duplicate_project_names (sel : String) :
    (∀ (l₁ : List Project) (p : Project) (l₂ : List Project),
      p.name = sel → (∀ q ∈ l₁, q.name ≠ sel) →
      resolveProjectId (l₁ ++ p :: l₂) sel = some p.id) ∧
    (∀ (projects : List Project) (members : List TeamMember)
      (tasks : List Task) (t : Task) (p : Project),
      t ∈ tasks → (projects.find? fun q => q.id == t.project_id) = some p →
      p.name = sel →
      joinTask projects members t ∈
        listTasks projects members tasks (some sel) none) := by
  constructor
  · intro l₁ p l₂ hp hl₁
    unfold resolveProjectId
    rw [List.find?_append]
    have hnone : (l₁.find? fun q => q.name == sel) = none := by
      rw [List.find?_eq_none]
      intro q hq
      simp only [beq_iff_eq]
      exact hl₁ q hq
    rw [hnone, Option.none_or, List.find?_cons_of_pos _ (by simp [hp])]
    rfl
  · intro projects members tasks t p ht hfind hname
    refine List.mem_filter.mpr ⟨List.mem_map_of_mem _ ht, ?_⟩
    simp [matchesFilters, joinTask, hfind, hname]

/-- Witness for C10: two stored projects both named `Alpha` (ids 1 and 2);
the reports page resolves `Alpha` to id 1, and the tasks-page filter on
`Alpha` returns the rows of the task of project 1 and of the task of
project 2 alike. -/
theorem duplicate_project_names_witness :
    resolveProjectId [projAlpha, projBeta] "Alpha" = some 1 ∧
    joinTask [projAlpha, projBeta] [] taskOpen ∈
      listTasks [projAlpha, projBeta] [] [taskOpen, taskBeta]
        (some "Alpha") none ∧
    joinTask [projAlpha, projBeta] [] taskBeta ∈
      listTasks [projAlpha, projBeta] [] [taskOpen, taskBeta]
        (some "Alpha") none := by
  refine ⟨?_, ?_, ?_⟩
  · exact (duplicate_project_names "Alpha").1 [] projAlpha [projBeta] rfl
      (fun q hq => by cases hq)
  · exact (duplicate_project_names "Alpha").2 [projAlpha, projBeta] []
      [taskOpen, taskBeta] taskOpen projAlpha (by simp) (by decide) rfl
  · exact (duplicate_project_names "Alpha").2 [projAlpha, projBeta] []
      [taskOpen, taskBeta] taskBeta projBeta (by simp) (by decide) rfl

end DevTrack
